import Mathlib

/-!
# Verification of the grok-cli tool-call scheduling and turn-orchestration core

This development gives a shallow embedding, in Lean 4, of the core of the
`grok-cli` repository — the tool-call scheduler
(`packages/core/src/core/coreToolScheduler.ts`), the turn engine
(the `Turn` class of `packages/core/src/core/logger.ts`), the conversation
client (`packages/core/src/core/xaiclient.ts`) and the non-interactive
single-tool executor (`executeSingleToolCall` of
`packages/core/src/core/grokclient.ts`) — and proves or refutes the
behavioural properties stated for them.

External collaborators (the JSON parser, the tool registry, the model
transport) are modelled as function parameters: the code under verification
treats them as opaque capabilities, so the theorems quantify over them.
Asynchronous execution is modelled by explicit settlement events applied to
the scheduler state; the JavaScript runtime is single-threaded, so every
handler runs atomically between suspension points.
-/

/-! ## Data model shared by the scheduler and the executors -/

/-- A parsed JSON argument record (`Record<string, unknown>` in the source).
The scheduler and executor treat it opaquely — it is only produced by the
(abstract) JSON parser and handed to tools — so fields are modelled as
string pairs. -/
structure ParsedArgs where
  fields : List (String × String)
deriving DecidableEq, Repr

/-- The empty argument record, used by `schedule` when argument parsing
fails (`const requestInfoOnError = ... args: \x7b\x7d`). -/
def emptyArgs : ParsedArgs := { fields := [] }

/-- An OpenAI-style tool-call message param
(`ChatCompletionToolMessageParam`): role, correlation id and string
content. -/
structure ToolMessage where
  role : String
  tool_call_id : String
  content : String
deriving DecidableEq, Repr

/-- `convertToToolMessage` from `coreToolScheduler.ts`: formats a tool's
string output for an OpenAI tool message. -/
def convertToToolMessage (toolCallId : String) (result : String) : ToolMessage :=
  { role := "tool", tool_call_id := toolCallId, content := result }

/-- `createErrorToolMessage` from `coreToolScheduler.ts`: wraps an error
message for a request. -/
def createErrorToolMessage (requestId : String) (errorMessage : String) : ToolMessage :=
  convertToToolMessage requestId ("Tool execution failed with error: " ++ errorMessage)

/-- The content a tool returns (`ToolResult.llmContent`): either already a
string, or structured content carrying its JSON stringification. -/
inductive LlmContent where
  | str (s : String)
  | structured (stringified : String)
deriving DecidableEq, Repr

/-- A tool execution result (`ToolResult`). -/
structure ToolResult where
  llmContent : LlmContent

/-- A registered tool handle. Its `execute` models
`tool.execute(args, signal)`: a fulfilled promise is `Except.ok`, a
rejected one `Except.error` carrying the error message. -/
structure Tool where
  execute : ParsedArgs → Except String ToolResult

/-- A raw tool call as received from the API
(`ChatCompletionMessageToolCall`): id plus `function.name` and the
JSON-encoded `function.arguments` string. -/
structure APIToolCall where
  id : String
  name : String
  arguments : String

/-! ## The Tool Call Scheduler (`coreToolScheduler.ts`) -/

/-- The scheduler's call statuses (the discriminants of the `ToolCall`
tagged union in `coreToolScheduler.ts`). -/
inductive Status where
  | validating
  | scheduled
  | executing
  | awaiting_approval
  | success
  | error
  | cancelled
deriving DecidableEq, Repr

/-- A call's internal request record (`ToolCallRequest`). -/
structure SToolCallRequest where
  id : String
  name : String
  args : ParsedArgs
deriving DecidableEq, Repr

/-- A scheduler tool call. The TypeScript source declares one record type
per status; all share `status` and `request`, terminal ones carry
`response`, non-error ones carry `tool`, so the union is embedded as a
single record with optional fields. -/
structure SToolCall where
  status : Status
  request : SToolCallRequest
  tool : Option Tool
  response : Option ToolMessage

/-- `['success','error','cancelled'].includes(call.status)` — terminal
statuses (`checkAndNotifyCompletion`). -/
def isTerminalStatus : Status → Bool
  | .success => true
  | .error => true
  | .cancelled => true
  | _ => false

/-- `['scheduled','cancelled','success','error'].includes(call.status)` —
the readiness test of `attemptExecutionOfScheduledCalls`. -/
def readyStatus : Status → Bool
  | .scheduled => true
  | .cancelled => true
  | .success => true
  | .error => true
  | _ => false

/-- `call.status === 'scheduled'`. -/
def isScheduledStatus : Status → Bool
  | .scheduled => true
  | _ => false

/-- `toolCall.status !== 'validating'` negated — the guard of the
confirmation loop in `schedule`. -/
def isValidatingStatus : Status → Bool
  | .validating => true
  | _ => false

/-- `call.status === 'executing' || call.status === 'awaiting_approval'` —
the busy test of `CoreToolScheduler.isRunning`. -/
def isActiveStatus : Status → Bool
  | .executing => true
  | .awaiting_approval => true
  | _ => false

/-- `CoreToolScheduler.isRunning`. -/
def isRunning (toolCalls : List SToolCall) : Bool :=
  toolCalls.any (fun c => isActiveStatus c.status)

/-- Admission of one request (the `requests.map` body of
`CoreToolScheduler.schedule`): parse the argument string with the abstract
JSON parser; on failure produce a terminal error call embedding the raw
payload; otherwise look the tool up in the registry; if absent produce a
terminal error call naming the tool; otherwise a `validating` call holding
the resolved tool handle. -/
def admitRequest (getTool : String → Option Tool) (parse : String → Option ParsedArgs)
    (req : APIToolCall) : SToolCall :=
  match parse req.arguments with
  | none =>
    { status := .error
      request := { id := req.id, name := req.name, args := emptyArgs }
      tool := none
      response := some (createErrorToolMessage req.id
        ("Failed to parse tool arguments as JSON: " ++ req.arguments)) }
  | some parsedArgs =>
    let requestInfo : SToolCallRequest := { id := req.id, name := req.name, args := parsedArgs }
    match getTool req.name with
    | none =>
      { status := .error
        request := requestInfo
        tool := none
        response := some (createErrorToolMessage req.id
          ("Tool \"" ++ req.name ++ "\" not found in registry.")) }
    | some toolInstance =>
      { status := .validating, request := requestInfo, tool := some toolInstance,
        response := none }

/-- The error message thrown by `schedule` when the scheduler is busy. -/
def busyMessage : String :=
  "Cannot schedule new tool calls while other tool calls are actively running."

/-- `CoreToolScheduler.schedule`, up to the batch-state update: throws
(`Except.error`) when `isRunning`, otherwise admits every request and
concatenates the new calls onto the batch. The confirmation loop that
follows in the source iterates only over calls still in `validating`
status; its body is elided in the source (see `confirmationPhaseCalls`). -/
def schedule (getTool : String → Option Tool) (parse : String → Option ParsedArgs)
    (toolCalls : List SToolCall) (requests : List APIToolCall) :
    Except String (List SToolCall) :=
  if isRunning toolCalls then .error busyMessage
  else .ok (toolCalls ++ requests.map (admitRequest getTool parse))

/-- A `schedule` call as seen by the caller holding the scheduler state: a
thrown error leaves `this.toolCalls` untouched. -/
def scheduleStep (getTool : String → Option Tool) (parse : String → Option ParsedArgs)
    (toolCalls : List SToolCall) (requests : List APIToolCall) :
    List SToolCall × Option String :=
  match schedule getTool parse toolCalls requests with
  | .error e => (toolCalls, some e)
  | .ok newState => (newState, none)

/-- The calls processed by the confirmation phase of `schedule`: the loop
body executes only for calls whose status is `validating`
(`if (toolCall.status !== 'validating') continue;`), so the confirmation
collaborator is consulted for exactly these calls. -/
def confirmationPhaseCalls (newToolCalls : List SToolCall) : List SToolCall :=
  newToolCalls.filter (fun c => isValidatingStatus c.status)

/-- `CoreToolScheduler.attemptExecutionOfScheduledCalls`: when every call
in the batch is `scheduled` or terminal, dispatch every `scheduled` call —
returning the new batch state (each dispatched call transitioned to
`executing`) and the list of dispatched calls; otherwise nothing happens.
The `setStatusInternal` call that performs the `executing` transition has
its body elided in the source; the record update is modelled from the
spec: the call keeps its request and position and only its status
changes. -/
def attemptExecutionOfScheduledCalls (toolCalls : List SToolCall) :
    List SToolCall × List SToolCall :=
  if toolCalls.all (fun c => readyStatus c.status) then
    (toolCalls.map (fun c =>
        if isScheduledStatus c.status then { c with status := .executing } else c),
     toolCalls.filter (fun c => isScheduledStatus c.status))
  else (toolCalls, [])

/-- The settlement of one dispatched execution: the tool's promise either
fulfilled with result content (already cast to a string by the source via
`toolResult.llmContent as string`) or rejected with an error message. -/
inductive ExecOutcome where
  | fulfilled (llmContent : String)
  | rejected (message : String)
deriving DecidableEq, Repr

/-- The settlement handler attached to each dispatched execution in
`attemptExecutionOfScheduledCalls` (`.then` / `.catch`): on fulfilment,
`cancelled` when the shared signal is aborted, else `success` with the
converted tool message; on rejection, `error` with the wrapped message.
`setStatusInternal`'s body is elided in the source; the record update is
modelled from the spec: terminal states carry the formatted result
message and the call keeps its request. -/
def resolveSettledCall (aborted : Bool) (c : SToolCall) (outcome : ExecOutcome) : SToolCall :=
  match outcome with
  | .fulfilled llmContent =>
    if aborted then
      { c with status := .cancelled,
               response := some (convertToToolMessage c.request.id
                 "User cancelled tool execution.") }
    else
      { c with status := .success,
               response := some (convertToToolMessage c.request.id llmContent) }
  | .rejected message =>
    { c with status := .error,
             response := some (createErrorToolMessage c.request.id message) }

/-- A settlement event: which call settled (by id), whether the shared
cancellation signal was aborted at settlement time, and the outcome. -/
structure SettleEvent where
  callId : String
  aborted : Bool
  outcome : ExecOutcome

/-- Applying one settlement event to the batch: the call with the matching
id is resolved in place, every other call is untouched (modelled from the
spec for the elided `setStatusInternal` body: a status update never moves
a call within the batch). -/
def applyEvent (toolCalls : List SToolCall) (ev : SettleEvent) : List SToolCall :=
  toolCalls.map (fun c =>
    if c.request.id = ev.callId then resolveSettledCall ev.aborted c ev.outcome else c)

/-- The outcome of `CoreToolScheduler.checkAndNotifyCompletion`: the new
batch state, and `some` payload exactly when the completion handler
`onAllToolCallsComplete` was invoked. The payload maps `call.response`
over the snapshot; the source casts the snapshot to `CompletedToolCall[]`
(where `response` always exists), which the embedding keeps as an
`Option`-valued projection. -/
structure CompletionOutcome where
  toolCalls : List SToolCall
  completed : Option (List (Option ToolMessage))

/-- `CoreToolScheduler.checkAndNotifyCompletion`: when the batch is
non-empty and every call is terminal, snapshot and clear the batch and
invoke the completion handler with the calls' responses in batch order;
otherwise do nothing. -/
def checkAndNotifyCompletion (toolCalls : List SToolCall) : CompletionOutcome :=
  if 0 < toolCalls.length ∧ toolCalls.all (fun c => isTerminalStatus c.status) then
    { toolCalls := [], completed := some (toolCalls.map (fun c => c.response)) }
  else
    { toolCalls := toolCalls, completed := none }

/-! ## The Turn Engine (`Turn` class, second half of `logger.ts`) -/

/-- The stream events yielded by `Turn.run` (the `EventType` enum; the
`ChatCompressed` event is yielded by the client, not by `run`). -/
inductive StreamEvent where
  | contentDelta (value : String)
  | toolCallStart (name : String)
  | toolCallDelta (name : String) (argsChunk : String)
  | toolCallEnd (name : String)
  | errorEvent (message : String)
deriving DecidableEq, Repr

/-- Recognizer for `toolCallStart` events. -/
def isStartEvent : StreamEvent → Bool
  | .toolCallStart _ => true
  | _ => false

/-- Recognizer for `toolCallEnd` events. -/
def isEndEvent : StreamEvent → Bool
  | .toolCallEnd _ => true
  | _ => false

/-- Recognizer for `toolCallDelta` events. -/
def isDeltaEvent : StreamEvent → Bool
  | .toolCallDelta _ _ => true
  | _ => false

/-- One per-index assembly buffer of `Turn.run`
(`toolCallBuffers[index] = \x7bid, function: \x7bname, arguments\x7d\x7d`). -/
structure ToolCallBuffer where
  id : String
  name : String
  arguments : String
deriving DecidableEq, Repr

/-- The buffer object, keyed by the fragment index. JavaScript objects
iterate integer keys in ascending order, so the object is embedded as an
association list kept sorted by index. -/
abbrev Buffers := List (Nat × ToolCallBuffer)

/-- Insert or replace the buffer at an index, keeping keys ascending
(JavaScript integer-keyed property semantics). -/
def setBuffer : Buffers → Nat → ToolCallBuffer → Buffers
  | [], i, b => [(i, b)]
  | (j, c) :: rest, i, b =>
    if i = j then (i, b) :: rest
    else if i < j then (i, b) :: (j, c) :: rest
    else (j, c) :: setBuffer rest i b

/-- Look up the buffer at an index (`toolCallBuffers[index]`). -/
def getBuffer : Buffers → Nat → Option ToolCallBuffer
  | [], _ => none
  | (j, c) :: rest, i => if i = j then some c else getBuffer rest i

/-- One streamed tool-call fragment
(`chunk.choices[0].delta.tool_calls[k]`): the zero-based index, and the
optional `id`, `function.name` and `function.arguments` pieces. -/
structure ToolCallFragment where
  index : Nat
  id : Option String
  name : Option String
  arguments : Option String

/-- The `if (toolCallChunk.id)` step: a fragment carrying an id starts a
fresh buffer at its index (resetting name and arguments). -/
def applyIdFragment (bufs : Buffers) (frag : ToolCallFragment) : Buffers :=
  match frag.id with
  | some newId => setBuffer bufs frag.index { id := newId, name := "", arguments := "" }
  | none => bufs

/-- Whether the fragment carries a non-empty name piece (JavaScript
truthiness: `if (toolCallChunk.function?.name)` skips both `undefined` and
the empty string). -/
def hasNamePiece (frag : ToolCallFragment) : Bool :=
  match frag.name with
  | some n => !(n = "")
  | none => false

/-- Whether the fragment carries a non-empty arguments piece
(`if (toolCallChunk.function?.arguments)`). -/
def hasArgsPiece (frag : ToolCallFragment) : Bool :=
  match frag.arguments with
  | some a => !(a = "")
  | none => false

/-- Processing of one tool-call fragment inside `Turn.run`'s chunk loop:
establish the buffer if an id arrived, skip the fragment entirely when no
buffer exists for its index, otherwise append the name piece (yielding a
`toolCallStart` with the accumulated name) and the arguments piece
(yielding a `toolCallDelta`). -/
def processToolCallFragment (bufs : Buffers) (frag : ToolCallFragment) :
    Buffers × List StreamEvent :=
  let bufs1 := applyIdFragment bufs frag
  match getBuffer bufs1 frag.index with
  | none => (bufs1, [])
  | some buffer =>
    let (buffer1, nameEvents) :=
      match frag.name with
      | some n =>
        if n = "" then (buffer, ([] : List StreamEvent))
        else
          let b := { buffer with name := buffer.name ++ n }
          (b, [StreamEvent.toolCallStart b.name])
      | none => (buffer, [])
    let (buffer2, argEvents) :=
      match frag.arguments with
      | some a =>
        if a = "" then (buffer1, ([] : List StreamEvent))
        else ({ buffer1 with arguments := buffer1.arguments ++ a },
              [StreamEvent.toolCallDelta buffer1.name a])
      | none => (buffer1, [])
    (setBuffer bufs1 frag.index buffer2, nameEvents ++ argEvents)

/-- The delta of one stream chunk (`chunk.choices[0]?.delta`): an optional
text piece and an optional array of tool-call fragments. -/
structure ChunkDelta where
  content : Option String
  tool_calls : Option (List ToolCallFragment)

/-- A stream chunk; `none` models a chunk whose `choices[0]?.delta` is
absent (`if (!delta) continue`). -/
abbrev Chunk := Option ChunkDelta

/-- The accumulating state of `Turn.run`'s chunk loop. -/
structure TurnState where
  fullResponseText : String
  toolCallBuffers : Buffers

/-- Processing of one present chunk delta: append and yield the text piece
(skipped when empty — JavaScript truthiness of `delta.content`), then fold
the tool-call fragments through `processToolCallFragment`. -/
def processDelta (st : TurnState) (delta : ChunkDelta) : TurnState × List StreamEvent :=
  let (text, textEvents) :=
    match delta.content with
    | some s =>
      if s = "" then (st.fullResponseText, ([] : List StreamEvent))
      else (st.fullResponseText ++ s, [StreamEvent.contentDelta s])
    | none => (st.fullResponseText, [])
  match delta.tool_calls with
  | none => ({ fullResponseText := text, toolCallBuffers := st.toolCallBuffers }, textEvents)
  | some frags =>
    let (bufs, fragEvents) := frags.foldl
      (fun acc frag =>
        let (b2, evs) := processToolCallFragment acc.1 frag
        (b2, acc.2 ++ evs))
      (st.toolCallBuffers, ([] : List StreamEvent))
    ({ fullResponseText := text, toolCallBuffers := bufs }, textEvents ++ fragEvents)

/-- A finalized tool call (`ChatCompletionMessageToolCall` assembled from a
buffer at stream end). -/
structure FinalizedToolCall where
  id : String
  name : String
  arguments : String
deriving DecidableEq, Repr

/-- The final assistant message assembled by `Turn.run` at stream end:
`content` is `null` when no text accumulated (`fullResponseText || null`),
`tool_calls` is present only when calls were completed. -/
structure AssistantMessage where
  role : String
  content : Option String
  tool_calls : Option (List FinalizedToolCall)
deriving DecidableEq, Repr

/-- The observable outcome of `Turn.run` over a whole stream: the yielded
events in order, the `pendingToolCalls` field and the final assistant
message (`none` when the run returned early on abort, leaving
`finalAssistantMessage` null). -/
structure TurnResult where
  events : List StreamEvent
  pendingToolCalls : List FinalizedToolCall
  finalAssistantMessage : Option AssistantMessage
deriving DecidableEq, Repr

/-- The stream-end phase of `Turn.run`: collect the buffers (ascending
index order, as `Object.values`), emit one `toolCallEnd` per completed
call, and assemble the final assistant message. Returns
(end events, pendingToolCalls, final message). -/
def finalizeTurn (st : TurnState) :
    List StreamEvent × List FinalizedToolCall × AssistantMessage :=
  let completed : List FinalizedToolCall := st.toolCallBuffers.map
    (fun p => { id := p.2.id, name := p.2.name, arguments := p.2.arguments })
  let pending := if 0 < completed.length then completed else []
  let endEvents := if 0 < completed.length
    then completed.map (fun c => StreamEvent.toolCallEnd c.name) else []
  let message : AssistantMessage :=
    { role := "assistant"
      content := if st.fullResponseText = "" then none else some st.fullResponseText
      tool_calls := if 0 < pending.length then some pending else none }
  (endEvents, pending, message)

/-- The chunk loop of `Turn.run`. `aborted i` is the value of
`signal.aborted` observed before processing the `i`-th chunk; on abort the
loop returns early (`none` state: finalization is skipped). -/
def runChunksAux (aborted : Nat → Bool) (st : TurnState) (acc : List StreamEvent)
    (i : Nat) : List Chunk → List StreamEvent × Option TurnState
  | [] => (acc, some st)
  | chunk :: rest =>
    if aborted i then (acc, none)
    else
      match chunk with
      | none => runChunksAux aborted st acc (i + 1) rest
      | some delta =>
        let (st2, evs) := processDelta st delta
        runChunksAux aborted st2 (acc ++ evs) (i + 1) rest

/-- `Turn.run` over a complete stream of chunks: the chunk loop followed,
when not aborted, by the stream-end phase. -/
def runChunks (aborted : Nat → Bool) (chunks : List Chunk) : TurnResult :=
  match runChunksAux aborted { fullResponseText := "", toolCallBuffers := [] } [] 0 chunks with
  | (evs, none) => { events := evs, pendingToolCalls := [], finalAssistantMessage := none }
  | (evs, some st) =>
    let (endEvents, pending, message) := finalizeTurn st
    { events := evs ++ endEvents, pendingToolCalls := pending,
      finalAssistantMessage := some message }

/-! ## History compaction (`XaiClient.tryCompressChat`, `xaiclient.ts`) -/

/-- A role-tagged chat message (`ChatCompletionMessageParam`); `content`
is `none` where the API would carry `null`. -/
structure ChatMessage where
  role : String
  content : Option String
deriving DecidableEq, Repr

/-- The summarization prompt appended to the history by
`tryCompressChat`. -/
def summarizationPromptText : String :=
  "Summarize our conversation up to this point. The summary should be a concise yet comprehensive overview of all key topics, questions, code, and important details. This summary will replace the current chat history, so it must capture everything essential for context."

/-- `XaiClient`'s `compressionThreshold`. -/
def compressionThreshold : Nat := 25

/-- The compression statistics returned on success
(`ChatCompressionInfo`; message counts are used as a proxy for token
counts). -/
structure ChatCompressionInfo where
  originalTokenCount : Nat
  newTokenCount : Nat
deriving DecidableEq, Repr

/-- `XaiClient.tryCompressChat`. The summarization model call is the
abstract collaborator `summarize`: `Except.error` models the API call (or
the `choices[0]` access) throwing — caught by the source's `catch`, which
reports and returns `null`; `Except.ok` carries
`summarizationResponse.choices[0].message.content`, where `none` or the
empty string is falsy (`if (!summaryText) return null`). On success the
history is replaced by `initialHistory` (the value `createInitialHistory`
would produce) plus the summary exchange. Returns the new history paired
with the result — the history component is unchanged whenever the result
is `none`. -/
def tryCompressChat (initialHistory : List ChatMessage)
    (summarize : List ChatMessage → Except String (Option String))
    (history : List ChatMessage) (force : Bool) :
    List ChatMessage × Option ChatCompressionInfo :=
  let originalMessageCount := history.length
  if originalMessageCount = 0 ∨ (¬force ∧ originalMessageCount < compressionThreshold) then
    (history, none)
  else
    match summarize (history ++ [{ role := "user", content := some summarizationPromptText }]) with
    | .error _ => (history, none)
    | .ok none => (history, none)
    | .ok (some summaryText) =>
      if summaryText = "" then (history, none)
      else
        let newHistory := initialHistory ++
          [{ role := "user",
             content := some ("The previous conversation has been summarized. Here is the summary:\n\n"
               ++ summaryText) },
           { role := "assistant",
             content := some "Thank you for the summary. My context is updated." }]
        (newHistory,
         some { originalTokenCount := originalMessageCount,
                newTokenCount := newHistory.length })

/-! ## Non-interactive execution (`executeSingleToolCall`, `grokclient.ts`) -/

/-- `executeSingleToolCall`: executes one tool call and always returns a
tool message for the API. The JSON parser and the registry lookup are the
abstract collaborators `parse` and `getTool`; the tool's execution is its
`execute` field, whose `Except.error` models a thrown/rejected execution.
All four outcomes (parse failure, unknown tool, execution failure,
success) are folded into a returned message — the source catches every
failure, so the embedding's result type is a plain `ToolMessage`, not an
exception. Telemetry (`logToolCall`) is fire-and-forget and carries no
control flow, so it is not modelled. -/
def executeSingleToolCall (parse : String → Option ParsedArgs)
    (getTool : String → Option Tool) (toolCall : APIToolCall) : ToolMessage :=
  let toolName := toolCall.name
  let toolCallId := toolCall.id
  let tool := getTool toolName
  match parse toolCall.arguments with
  | none =>
    { role := "tool", tool_call_id := toolCallId,
      content := "Error: Failed to parse tool arguments as JSON for tool \"" ++ toolName
        ++ "\". Invalid JSON: " ++ toolCall.arguments }
  | some args =>
    match tool with
    | none =>
      { role := "tool", tool_call_id := toolCallId,
        content := "Error: Tool \"" ++ toolName ++ "\" not found in registry." }
    | some t =>
      match t.execute args with
      | .ok toolResult =>
        { role := "tool", tool_call_id := toolCallId,
          content := match toolResult.llmContent with
            | .str s => s
            | .structured j => j }
      | .error message =>
        { role := "tool", tool_call_id := toolCallId,
          content := "Error executing tool: " ++ message }

/-! ## Helper lemmas -/

/-- Only `Status.scheduled` satisfies `isScheduledStatus`. -/
theorem status_eq_of_isScheduled {s : Status} (h : isScheduledStatus s = true) :
    s = Status.scheduled := by
  cases s <;> simp [isScheduledStatus] at h ⊢

/-- Only `Status.validating` satisfies `isValidatingStatus`. -/
theorem status_eq_of_isValidating {s : Status} (h : isValidatingStatus s = true) :
    s = Status.validating := by
  cases s <;> simp [isValidatingStatus] at h ⊢

/-- Every call dispatched by `attemptExecutionOfScheduledCalls` has status
`scheduled`. -/
theorem dispatched_status {state : List SToolCall} {d : SToolCall}
    (hd : d ∈ (attemptExecutionOfScheduledCalls state).2) :
    d.status = Status.scheduled := by
  unfold attemptExecutionOfScheduledCalls at hd
  split at hd
  · simp only [List.mem_filter] at hd
    exact status_eq_of_isScheduled hd.2
  · simp at hd

/-- Every call in the confirmation phase has status `validating`. -/
theorem confirmation_status {l : List SToolCall} {d : SToolCall}
    (hd : d ∈ confirmationPhaseCalls l) : d.status = Status.validating := by
  unfold confirmationPhaseCalls at hd
  simp only [List.mem_filter] at hd
  exact status_eq_of_isValidating hd.2

/-- `resolveSettledCall` never changes a call's request record. -/
theorem resolveSettledCall_request (aborted : Bool) (c : SToolCall) (outcome : ExecOutcome) :
    (resolveSettledCall aborted c outcome).request = c.request := by
  unfold resolveSettledCall
  cases outcome <;> cases aborted <;> rfl

/-- `applyEvent` preserves the batch's request records and their order. -/
theorem applyEvent_map_request (calls : List SToolCall) (ev : SettleEvent) :
    (applyEvent calls ev).map (fun c => c.request) = calls.map (fun c => c.request) := by
  unfold applyEvent
  rw [List.map_map]
  apply List.map_congr_left
  intro c _
  by_cases h : c.request.id = ev.callId
  · simp only [Function.comp_apply, if_pos h, resolveSettledCall_request]
  · simp only [Function.comp_apply, if_neg h]

/-- Any sequence of settlement events preserves the batch's request records
and their order. -/
theorem foldl_applyEvent_map_request (calls : List SToolCall) (evs : List SettleEvent) :
    (List.foldl applyEvent calls evs).map (fun c => c.request) =
      calls.map (fun c => c.request) := by
  induction evs generalizing calls with
  | nil => rfl
  | cons ev rest ih =>
    rw [List.foldl_cons, ih (applyEvent calls ev), applyEvent_map_request]

/-- A sample registered tool used by concrete witnesses. -/
def sampleTool : Tool :=
  { execute := fun _ => Except.ok { llmContent := LlmContent.str "hi" } }

/-! ## Claims -/

/-- Claim C10: for every tool-call input (any id, name and argument
string) and any parser, registry and tool behaviour,
`executeSingleToolCall` never throws (its result type is a plain message)
and always returns a message with role `tool` and `tool_call_id` equal to
the input call's id, across all four outcomes: parse failure, tool not
found, execution throwing, and success. -/
theorem executeSingleToolCall_total_shape
    (parse : String → Option ParsedArgs) (getTool : String → Option Tool)
    (toolCall : APIToolCall) :
    (executeSingleToolCall parse getTool toolCall).role = "tool"
    ∧ (executeSingleToolCall parse getTool toolCall).tool_call_id = toolCall.id := by
  unfold executeSingleToolCall
  rcases hp : parse toolCall.arguments with _ | args
  · simp [hp]
  · rcases ht : getTool toolCall.name with _ | t
    · simp [hp, ht]
    · rcases he : t.execute args with r | m <;> simp [hp, ht, he]

/-- Claim C9: history compaction is best-effort and atomic with respect to
failure — if the summarization call throws, or returns an empty (or null)
summary, `tryCompressChat` leaves the history unchanged and returns null
rather than raising. -/
theorem tryCompressChat_failure_leaves_history
    (initialHistory : List ChatMessage)
    (summarize : List ChatMessage → Except String (Option String))
    (history : List ChatMessage) (force : Bool)
    (h : (∃ e, summarize (history ++
            [{ role := "user", content := some summarizationPromptText }]) = Except.error e)
      ∨ summarize (history ++
            [{ role := "user", content := some summarizationPromptText }]) = Except.ok none
      ∨ summarize (history ++
            [{ role := "user", content := some summarizationPromptText }]) =
          Except.ok (some "")) :
    tryCompressChat initialHistory summarize history force = (history, none) := by
  unfold tryCompressChat
  rcases h with ⟨e, he⟩ | he | he <;> simp only [he] <;> simp

/-- Witness for C9 at a concrete 25-message history whose summarization
call throws. -/
theorem tryCompressChat_failure_witness :
    tryCompressChat [] (fun _ => Except.error "boom")
      (List.replicate 25 { role := "user", content := some "m" }) false
      = (List.replicate 25 { role := "user", content := some "m" }, none) :=
  tryCompressChat_failure_leaves_history [] (fun _ => Except.error "boom")
    (List.replicate 25 { role := "user", content := some "m" }) false
    (Or.inl ⟨"boom", rfl⟩)

/-- The three-chunk stream of the C8 scenario: a text fragment, then a
tool-call fragment at index 0 carrying a name but no id, then stream
end. -/
def c8Chunks : List Chunk :=
  [some { content := some "Hello", tool_calls := none },
   some { content := none,
          tool_calls := some [{ index := 0, id := none, name := some "ls",
                                arguments := none }] }]

/-- Claim C8: on a stream of a text fragment "Hello", a tool-call fragment
at index 0 carrying the name "ls" but no id, then stream end, `Turn.run`
yields exactly `ContentDelta "Hello"`, no `ToolCallEnd` event, and the
final assistant message carries no tool calls, with `pendingToolCalls`
empty. -/
theorem turn_hello_unterminated_scenario :
    runChunks (fun _ => false) c8Chunks =
      { events := [StreamEvent.contentDelta "Hello"]
        pendingToolCalls := []
        finalAssistantMessage := some { role := "assistant", content := some "Hello",
                                        tool_calls := none } }
    ∧ (runChunks (fun _ => false) c8Chunks).events.countP isEndEvent = 0 := by
  constructor <;> decide

/-- An executing call with a live tool handle, used as the concrete busy
batch for the C2 witness. -/
def busyCall : SToolCall :=
  { status := Status.executing
    request := { id := "1", name := "echo", args := emptyArgs }
    tool := some sampleTool
    response := none }

/-- Claim C2: scheduling while any call in the current batch is
`executing` or `awaiting_approval` fails immediately with the scheduler's
busy error, schedules none of the new requests, and leaves the existing
batch unchanged. -/
theorem schedule_busy_rejects
    (getTool : String → Option Tool) (parse : String → Option ParsedArgs)
    (toolCalls : List SToolCall) (requests : List APIToolCall)
    (h : ∃ c ∈ toolCalls,
      c.status = Status.executing ∨ c.status = Status.awaiting_approval) :
    schedule getTool parse toolCalls requests = Except.error busyMessage
    ∧ scheduleStep getTool parse toolCalls requests = (toolCalls, some busyMessage) := by
  have hrun : isRunning toolCalls = true := by
    rcases h with ⟨c, hc, hst⟩
    unfold isRunning
    rw [List.any_eq_true]
    refine ⟨c, hc, ?_⟩
    rcases hst with h1 | h1 <;> rw [h1] <;> rfl
  have hsched : schedule getTool parse toolCalls requests = Except.error busyMessage := by
    unfold schedule
    rw [hrun]
    rfl
  exact ⟨hsched, by unfold scheduleStep; rw [hsched]⟩

/-- Witness for C2: a singleton batch holding an executing call rejects an
empty new batch with the busy error. -/
theorem schedule_busy_witness :
    schedule (fun _ => none) (fun _ => none) [busyCall] [] = Except.error busyMessage
    ∧ scheduleStep (fun _ => none) (fun _ => none) [busyCall] []
        = ([busyCall], some busyMessage) :=
  schedule_busy_rejects (fun _ => none) (fun _ => none) [busyCall] []
    ⟨busyCall, by simp, Or.inl rfl⟩

/-- Claim C5: a request whose argument payload fails to parse as JSON is
admitted directly in the terminal `error` state, its result message embeds
the raw unparsed payload text, it holds no tool handle, and it is never
dispatched for execution. -/
theorem schedule_parse_failure_error
    (getTool : String → Option Tool) (parse : String → Option ParsedArgs)
    (req : APIToolCall) (h : parse req.arguments = none) :
    (admitRequest getTool parse req).status = Status.error
    ∧ isTerminalStatus (admitRequest getTool parse req).status = true
    ∧ (admitRequest getTool parse req).response =
        some { role := "tool", tool_call_id := req.id,
               content := "Tool execution failed with error: Failed to parse tool arguments as JSON: "
                 ++ req.arguments }
    ∧ (admitRequest getTool parse req).tool = none
    ∧ (∀ state : List SToolCall,
        admitRequest getTool parse req ∉ (attemptExecutionOfScheduledCalls state).2) := by
  have hadm : admitRequest getTool parse req =
      { status := Status.error
        request := { id := req.id, name := req.name, args := emptyArgs }
        tool := none
        response := some (createErrorToolMessage req.id
          ("Failed to parse tool arguments as JSON: " ++ req.arguments)) } := by
    unfold admitRequest
    rw [h]
  refine ⟨by rw [hadm], by rw [hadm]; rfl, ?_, by rw [hadm], ?_⟩
  · rw [hadm]
    unfold createErrorToolMessage convertToToolMessage
    rw [← String.append_assoc]
    rfl
  · intro state hmem
    have := dispatched_status hmem
    rw [hadm] at this
    exact absurd this (by simp)

/-- Witness for C5 at a concrete unparsable payload. -/
theorem schedule_parse_failure_witness :
    (admitRequest (fun _ => none) (fun _ => none)
        { id := "1", name := "ls", arguments := "bad json" }).status = Status.error
    ∧ (admitRequest (fun _ => none) (fun _ => none)
        { id := "1", name := "ls", arguments := "bad json" }).response =
        some { role := "tool", tool_call_id := "1",
               content := "Tool execution failed with error: Failed to parse tool arguments as JSON: bad json" } := by
  have h := schedule_parse_failure_error (fun _ => none) (fun _ => none)
    { id := "1", name := "ls", arguments := "bad json" } rfl
  exact ⟨h.1, by rw [h.2.2.1]; rfl⟩

/-- Claim C6: a request (with parsable arguments) naming a tool absent
from the registry is admitted directly in the terminal `error` state, its
result message names the missing tool, it holds no tool handle, and its
confirmation phase is skipped entirely — the confirmation loop never
processes it. -/
theorem schedule_unknown_tool_error
    (getTool : String → Option Tool) (parse : String → Option ParsedArgs)
    (req : APIToolCall) (a : ParsedArgs)
    (hp : parse req.arguments = some a) (ht : getTool req.name = none) :
    (admitRequest getTool parse req).status = Status.error
    ∧ isTerminalStatus (admitRequest getTool parse req).status = true
    ∧ (admitRequest getTool parse req).response =
        some { role := "tool", tool_call_id := req.id,
               content := "Tool execution failed with error: Tool \"" ++ req.name
                 ++ "\" not found in registry." }
    ∧ (admitRequest getTool parse req).tool = none
    ∧ (∀ l : List SToolCall,
        admitRequest getTool parse req ∉ confirmationPhaseCalls l) := by
  have hadm : admitRequest getTool parse req =
      { status := Status.error
        request := { id := req.id, name := req.name, args := a }
        tool := none
        response := some (createErrorToolMessage req.id
          ("Tool \"" ++ req.name ++ "\" not found in registry.")) } := by
    unfold admitRequest
    rw [hp]
    simp only [ht]
  refine ⟨by rw [hadm], by rw [hadm]; rfl, ?_, by rw [hadm], ?_⟩
  · rw [hadm]
    unfold createErrorToolMessage convertToToolMessage
    rw [← String.append_assoc, ← String.append_assoc]
    rfl
  · intro l hmem
    have := confirmation_status hmem
    rw [hadm] at this
    exact absurd this (by simp)

/-- Witness for C6 at a concrete request naming an unregistered tool. -/
theorem schedule_unknown_tool_witness :
    (admitRequest (fun _ => none) (fun _ => some emptyArgs)
        { id := "1", name := "ls", arguments := "" }).status = Status.error
    ∧ (admitRequest (fun _ => none) (fun _ => some emptyArgs)
        { id := "1", name := "ls", arguments := "" }).response =
        some { role := "tool", tool_call_id := "1",
               content := "Tool execution failed with error: Tool \"ls\" not found in registry." } := by
  have h := schedule_unknown_tool_error (fun _ => none) (fun _ => some emptyArgs)
    { id := "1", name := "ls", arguments := "" } emptyArgs rfl rfl
  exact ⟨h.1, by rw [h.2.2.1]; rfl⟩

/-- Claim C3: no call is dispatched for execution unless every call in the
batch is `scheduled` or already terminal; once that condition holds, the
dispatched calls are exactly the `scheduled` ones — every one of them. -/
theorem attemptExecution_gating (calls : List SToolCall) :
    (calls.all (fun c => readyStatus c.status) = false →
        attemptExecutionOfScheduledCalls calls = (calls, []))
    ∧ (calls.all (fun c => readyStatus c.status) = true →
        (attemptExecutionOfScheduledCalls calls).2 =
            calls.filter (fun c => isScheduledStatus c.status)
          ∧ ∀ c ∈ calls, c.status = Status.scheduled →
              c ∈ (attemptExecutionOfScheduledCalls calls).2) := by
  constructor
  · intro hall
    unfold attemptExecutionOfScheduledCalls
    rw [hall]
    rfl
  · intro hall
    have h2 : (attemptExecutionOfScheduledCalls calls).2 =
        calls.filter (fun c => isScheduledStatus c.status) := by
      unfold attemptExecutionOfScheduledCalls
      rw [hall]
      rfl
    refine ⟨h2, ?_⟩
    intro c hc hst
    rw [h2, List.mem_filter]
    exact ⟨hc, by rw [hst]; rfl⟩

/-- A concrete scheduled call, used by the C3 witness. -/
def readyCall : SToolCall :=
  { status := Status.scheduled
    request := { id := "1", name := "echo", args := emptyArgs }
    tool := some sampleTool
    response := none }

/-- Witness for C3: in a singleton all-ready batch, the scheduled call is
dispatched. -/
theorem attemptExecution_gating_witness :
    (attemptExecutionOfScheduledCalls [readyCall]).2 =
        [readyCall].filter (fun c => isScheduledStatus c.status)
    ∧ readyCall ∈ (attemptExecutionOfScheduledCalls [readyCall]).2 := by
  have h := (attemptExecution_gating [readyCall]).2 (by rfl)
  exact ⟨h.1, h.2 readyCall (by simp) rfl⟩

/-- An executing call whose settlement the C4 theorems examine. -/
def settlingCall : SToolCall :=
  { status := Status.executing
    request := { id := "1", name := "echo", args := emptyArgs }
    tool := some sampleTool
    response := none }

/-- Counterexample to C4 as stated: with the shared token already
cancelled, an executing call whose execution settles by rejection is
resolved to the `error` terminal state, not to `cancelled`. -/
theorem settle_rejected_after_cancel_counterexample :
    (resolveSettledCall true settlingCall (ExecOutcome.rejected "boom")).status = Status.error
    ∧ (resolveSettledCall true settlingCall (ExecOutcome.rejected "boom")).status ≠
        Status.cancelled := by
  constructor
  · rfl
  · intro hcontra
    simp [resolveSettledCall] at hcontra

/-- Claim C4 (amended): once the shared token is cancelled, an executing
call whose execution fulfils is resolved to `cancelled` regardless of the
value the tool returned, while a rejected execution is resolved to `error`
even after cancellation; a call reaches `success` only if the token was
not cancelled when the execution settled. -/
theorem settle_after_cancel_amended (aborted : Bool) (c : SToolCall)
    (outcome : ExecOutcome) :
    ((resolveSettledCall aborted c outcome).status = Status.success → aborted = false)
    ∧ (∀ content, outcome = ExecOutcome.fulfilled content → aborted = true →
        (resolveSettledCall aborted c outcome).status = Status.cancelled)
    ∧ (∀ message, outcome = ExecOutcome.rejected message →
        (resolveSettledCall aborted c outcome).status = Status.error) := by
  refine ⟨?_, ?_, ?_⟩
  · intro hs
    cases outcome <;> cases aborted <;> simp_all [resolveSettledCall]
  · rintro content rfl rfl
    rfl
  · rintro message rfl
    rfl

/-- Witness for C4 (amended): a fulfilled settlement under a cancelled
token resolves to `cancelled`. -/
theorem settle_after_cancel_witness :
    (resolveSettledCall true settlingCall (ExecOutcome.fulfilled "hi")).status =
      Status.cancelled :=
  (settle_after_cancel_amended true settlingCall (ExecOutcome.fulfilled "hi")).2.1
    "hi" rfl rfl

/-- Claim C1: a non-empty batch all of whose calls are terminal invokes
the completion handler exactly once with exactly one result message per
call in batch order; firing clears the batch, so a repeated check fires
nothing; the empty batch never fires; and settlement events — in whatever
order executions finish — never reorder the batch, so the payload order is
the original request order. -/
theorem scheduler_batch_completion (calls : List SToolCall)
    (hne : calls ≠ [])
    (hterm : ∀ c ∈ calls, isTerminalStatus c.status = true) :
    (checkAndNotifyCompletion calls).completed = some (calls.map (fun c => c.response))
    ∧ (∀ l, (checkAndNotifyCompletion calls).completed = some l →
        l.length = calls.length)
    ∧ (checkAndNotifyCompletion calls).toolCalls = []
    ∧ (checkAndNotifyCompletion (checkAndNotifyCompletion calls).toolCalls).completed = none
    ∧ (checkAndNotifyCompletion ([] : List SToolCall)).completed = none
    ∧ (∀ evs : List SettleEvent,
        (List.foldl applyEvent calls evs).map (fun c => c.request) =
          calls.map (fun c => c.request)) := by
  have hcond : 0 < calls.length ∧ calls.all (fun c => isTerminalStatus c.status) = true :=
    ⟨List.length_pos.mpr hne, List.all_eq_true.mpr hterm⟩
  have hfire : checkAndNotifyCompletion calls =
      { toolCalls := [], completed := some (calls.map (fun c => c.response)) } := by
    unfold checkAndNotifyCompletion
    rw [if_pos hcond]
  refine ⟨by rw [hfire], ?_, by rw [hfire], by rw [hfire]; rfl, by rfl,
    foldl_applyEvent_map_request calls⟩
  intro l hl
  rw [hfire] at hl
  simp only [Option.some.injEq] at hl
  rw [← hl, List.length_map]

/-- A successfully completed call, used by the C1 witness. -/
def doneCallA : SToolCall :=
  { status := Status.success
    request := { id := "1", name := "echo", args := emptyArgs }
    tool := some sampleTool
    response := some (convertToToolMessage "1" "hi") }

/-- An errored completed call, used by the C1 witness. -/
def doneCallB : SToolCall :=
  { status := Status.error
    request := { id := "2", name := "nope", args := emptyArgs }
    tool := none
    response := some (createErrorToolMessage "2" "Tool \"nope\" not found in registry.") }

/-- Witness for C1: a concrete two-call terminal batch fires the handler
with its two responses in order and clears the batch. -/
theorem scheduler_batch_completion_witness :
    (checkAndNotifyCompletion [doneCallA, doneCallB]).completed =
        some ([doneCallA, doneCallB].map (fun c => c.response))
    ∧ (checkAndNotifyCompletion [doneCallA, doneCallB]).toolCalls = [] := by
  have h := scheduler_batch_completion [doneCallA, doneCallB] (by simp)
    (by intro c hc; simp at hc; rcases hc with rfl | rfl <;> rfl)
  exact ⟨h.1, h.2.2.1⟩

/-- Claim C7 (amended): inside `Turn.run`, a tool-call fragment whose
index has no buffer (no id ever arrived for it) produces no events; a
fragment whose index has a buffer produces exactly one `ToolCallStart` per
non-empty name piece it carries — so a name streamed over several
fragments produces several start events, not one — and exactly one
`ToolCallDelta` per non-empty arguments piece, and no `ToolCallEnd`; at
stream end one `ToolCallEnd` is emitted per buffered call (exactly the
calls that received an id). -/
theorem turn_fragment_event_policy (bufs : Buffers) (frag : ToolCallFragment)
    (st : TurnState) :
    (getBuffer (applyIdFragment bufs frag) frag.index = none →
        (processToolCallFragment bufs frag).2 = [])
    ∧ (∀ b, getBuffer (applyIdFragment bufs frag) frag.index = some b →
        ((processToolCallFragment bufs frag).2.countP isStartEvent =
            (if hasNamePiece frag then 1 else 0)
          ∧ (processToolCallFragment bufs frag).2.countP isDeltaEvent =
            (if hasArgsPiece frag then 1 else 0)
          ∧ (processToolCallFragment bufs frag).2.countP isEndEvent = 0))
    ∧ (finalizeTurn st).1 =
        st.toolCallBuffers.map (fun p => StreamEvent.toolCallEnd p.2.name) := by
  refine ⟨?_, ?_, ?_⟩
  · intro hb
    unfold processToolCallFragment
    simp only [hb]
  · intro b hb
    unfold processToolCallFragment
    simp only [hb]
    rcases hn : frag.name with _ | n <;> rcases ha : frag.arguments with _ | a <;>
        simp only [hasNamePiece, hasArgsPiece, hn, ha] <;>
        split_ifs <;>
      simp_all [isStartEvent, isDeltaEvent, isEndEvent, List.countP_cons, List.countP_nil]
  · unfold finalizeTurn
    rcases hb : st.toolCallBuffers with _ | ⟨p, rest⟩
    · simp
    · simp [List.map_map, Function.comp]

/-- The buffer-carrying fragment of the C7 witness. -/
def startFrag : ToolCallFragment :=
  { index := 0, id := some "1", name := some "ls", arguments := none }

/-- Witness for C7 (amended): a fragment that both opens a buffer and
carries a non-empty name yields exactly one start event. -/
theorem turn_fragment_event_policy_witness :
    (processToolCallFragment [] startFrag).2.countP isStartEvent =
      (if hasNamePiece startFrag then 1 else 0) :=
  ((turn_fragment_event_policy [] startFrag
      { fullResponseText := "", toolCallBuffers := [] }).2.1
    { id := "1", name := "", arguments := "" } rfl).1

/-- The stream refuting C7 as stated: one tool call at index 0 whose name
arrives in two fragments ("l" then "s"). -/
def doubleNameChunks : List Chunk :=
  [some { content := none,
          tool_calls := some [{ index := 0, id := some "1", name := some "l",
                                arguments := none }] },
   some { content := none,
          tool_calls := some [{ index := 0, id := none, name := some "s",
                                arguments := none }] }]

/-- Counterexample to C7 as stated: a name split over two fragments yields
two `ToolCallStart` events for the same index, not exactly one the first
time the name becomes non-empty. -/
theorem turn_double_start_counterexample :
    (runChunks (fun _ => false) doubleNameChunks).events =
      [StreamEvent.toolCallStart "l", StreamEvent.toolCallStart "ls",
       StreamEvent.toolCallEnd "ls"]
    ∧ (runChunks (fun _ => false) doubleNameChunks).events.countP isStartEvent = 2 := by
  constructor <;> decide
